import Mathlib

/-!
# Verification of `statology.outliers`

A shallow embedding of `src/statology/outliers.py` (the outlier detection
and treatment module of the `statology` package), together with theorems
checking the natural-language specification against it.

Modelling choices:

* Numeric samples are `List ℚ` (numpy 1-d arrays of real numbers); the
  z-score path additionally uses `ℝ` because the population standard
  deviation involves a square root.
* The Python decorator `decorator`/`wrapper` is split into its two halves,
  exactly as in the source:
  - boundary resolution (source lines 79–85): `resolveBounds`;
  - treatment dispatch on `rtype`/`treatment`/`capping`
    (source lines 91–118): `dispatch` / `treatment`.
* Python falsiness of the `bounds` argument (`if not bounds`) is modelled
  by `truthy`: `None`, the scalar `0` and the empty tuple are falsy.
* Exceptions are modelled with `Except`.  `AssertionError` from the arity
  assert and `ValueError` for an unknown treatment method are both
  configuration errors (`OutlierError.configurationError`), and
  `NotImplementedError` is `OutlierError.unsupportedOperationError`;
  the messages are the ones from the source.
* `np.quantile(xs, q)` with its default linear interpolation is
  `quantileQ`: sort, take position `h = q * (n - 1)`, and linearly
  interpolate between the neighbouring order statistics.
* `scipy.stats.zscore(xs)` (default `ddof = 0`) is `zscoreOf`: division
  of `x - mean` by the population standard deviation.  In IEEE floats a
  zero standard deviation makes every score `0/0 = nan`; `fdiv` returns
  `Option ℝ` where `none` is that nan sentinel (in this code path a zero
  denominator always comes with a zero numerator, so `none` is exactly
  nan and never an infinity), and `oLt`/`oGt` are the IEEE comparisons,
  false on nan.
-/

namespace Statology

/-- Errors raised by the wrapper: `configurationError` stands for the
`AssertionError`/`ValueError` raised on malformed bounds or an unknown
treatment method, `unsupportedOperationError` for the
`NotImplementedError` raised on the discretization treatment. -/
inductive OutlierError where
  | configurationError (msg : String)
  | unsupportedOperationError (msg : String)
deriving DecidableEq, Repr

/-- The two decorated detector functions, identified in the source by
`func.__name__`. -/
inductive Method where
  | quartile
  | zscore
deriving DecidableEq, Repr

/-- The user-supplied `bounds` argument of the wrapper: `None`
(`unspecified`), a single scalar, or an iterable (modelled as a list). -/
inductive BoundsSpec where
  | unspecified
  | scalar (t : ℚ)
  | pair (l : List ℚ)
deriving DecidableEq, Repr

/-- `default_bounds = dict(quartile = (0.25, 0.75), zscore = (-2.5, 2.5))`
(source line 79). -/
def default_bounds : Method → List ℚ
  | .quartile => [1/4, 3/4]
  | .zscore => [-5/2, 5/2]

/-- Python truthiness of the `bounds` argument: `None`, the number `0`
and the empty iterable are falsy, everything else truthy. -/
def truthy : BoundsSpec → Bool
  | .unspecified => false
  | .scalar t => decide (t ≠ 0)
  | .pair l => decide (l ≠ [])

/-- Source lines 81–83: `bounds = default_bounds.get(func.__name__) if not
bounds else (float(-bounds), float(bounds)) if not hasattr(bounds,
"__iter__") else bounds`. -/
def resolveList (m : Method) (b : BoundsSpec) : List ℚ :=
  if truthy b then
    match b with
    | .unspecified => default_bounds m
    | .scalar t => [-t, t]
    | .pair l => l
  else default_bounds m

/-- Source line 85: `assert len(bounds) == 2, f"Boundary should be 2D,
got ..."`, followed by the use of the two components. -/
def resolveBounds (m : Method) (b : BoundsSpec) : Except OutlierError (ℚ × ℚ) :=
  match resolveList m b with
  | [lo, hi] => .ok (lo, hi)
  | l => .error (.configurationError ("Boundary should be 2D, got " ++ toString l.length))

/-! ## The quantile-range detector (`quartile`, source lines 122–149) -/

/-- Ascending sort, as performed internally by `np.quantile`. -/
def sortQ (xs : List ℚ) : List ℚ :=
  xs.insertionSort (· ≤ ·)

/-- Linear interpolation at (real-valued) position `h` into the sorted
list `s`: `s[i] + (h - i) * (s[j] - s[i])` with `i = ⌊h⌋` and
`j = min (i+1) (n-1)`. -/
def interpolate (s : List ℚ) (h : ℚ) : ℚ :=
  s.getD ⌊h⌋.toNat 0 +
    (h - (⌊h⌋.toNat : ℚ)) * (s.getD (min (⌊h⌋.toNat + 1) (s.length - 1)) 0 - s.getD ⌊h⌋.toNat 0)

/-- `np.quantile(xs, q)` with the default linear interpolation method:
sort `xs` and interpolate at position `q * (n - 1)`. -/
def quantileQ (xs : List ℚ) (q : ℚ) : ℚ :=
  interpolate (sortQ xs) (q * (((sortQ xs).length : ℚ) - 1))

/-- The decorated function `quartile` (source lines 142–149):
`lbound, rbound = np.quantile(xs, bounds[0]), np.quantile(xs, bounds[1])`,
`boundary_range = rbound - lbound`, and the returned mask is
`(xs < lbound - 1.5 * boundary_range) | (xs > rbound + 1.5 * boundary_range)`. -/
def quartile (xs : List ℚ) (bounds : ℚ × ℚ) : List Bool :=
  let lbound := quantileQ xs bounds.1
  let rbound := quantileQ xs bounds.2
  let boundary_range := rbound - lbound
  let lrange := lbound - 3/2 * boundary_range
  let rrange := rbound + 3/2 * boundary_range
  xs.map (fun x => decide (x < lrange) || decide (rrange < x))

/-! ## The standard-score detector (`zscore`, source lines 152–172) -/

/-- The sample mean used by `scipy.stats.zscore`. -/
def popMean (xs : List ℚ) : ℚ :=
  xs.sum / xs.length

/-- The population variance (`ddof = 0`) used by `scipy.stats.zscore`. -/
def popVar (xs : List ℚ) : ℚ :=
  (xs.map (fun x => (x - popMean xs) ^ 2)).sum / xs.length

open scoped Classical in
/-- The population standard deviation: the square root of the
population variance. -/
noncomputable def popStd (xs : List ℚ) : ℝ :=
  Real.sqrt (popVar xs)

open scoped Classical in
/-- IEEE floating-point division as performed element-wise by
`scipy.stats.zscore`, with `none` the nan sentinel: in this code path a
zero denominator only ever occurs together with a zero numerator (a
zero standard deviation forces every deviation from the mean to be
zero), so a zero denominator yields nan, never an infinity. -/
noncomputable def fdiv (a b : ℝ) : Option ℝ :=
  if b = 0 then none else some (a / b)

/-- IEEE `<` against a possibly-nan left operand: false on nan. -/
def oLt : Option ℝ → ℝ → Prop
  | Option.none, _ => False
  | some a, t => a < t

/-- IEEE `>` against a possibly-nan left operand: false on nan. -/
def oGt : Option ℝ → ℝ → Prop
  | Option.none, _ => False
  | some a, t => t < a

/-- `scores = stats.zscore(xs)` (source line 171): the standard score
`(x - mean) / population_std` of every observation, nan when the
standard deviation is zero. -/
noncomputable def zscoreScores (xs : List ℚ) : List (Option ℝ) :=
  xs.map (fun (x : ℚ) => fdiv ((x : ℝ) - (popMean xs : ℝ)) (popStd xs))

/-- The decorated function `zscore` (source lines 152–172): the mask
`(scores < bounds[0]) | (scores > bounds[1])`. -/
noncomputable def zscore (xs : List ℚ) (bounds : ℚ × ℚ) : List Prop :=
  (zscoreScores xs).map (fun s => oLt s (bounds.1 : ℝ) ∨ oGt s (bounds.2 : ℝ))

/-! ## The treatment dispatcher (source lines 91–118) -/

/-- The `capping` keyword argument: a scalar capping value or a pair of
clipping bounds (the source tests `hasattr(capping, "__iter__")`). -/
inductive CapSpec where
  | scalar (v : ℚ)
  | capPair (lo hi : ℚ)
deriving DecidableEq, Repr

/-- `np.clip(x, lo, hi)` on one element: maximum with `lo`, then minimum
with `hi`. -/
def clipQ (lo hi x : ℚ) : ℚ :=
  min hi (max lo x)

/-- The capping branch (source lines 100–108): a non-iterable capping
value replaces each flagged element, an iterable one clips the whole
sample with `np.clip(xs, *capping)`. -/
def cappingResult (xs : List ℚ) (mask : List Bool) : CapSpec → List ℚ
  | .scalar v => (xs.zip mask).map (fun p => if p.2 then v else p.1)
  | .capPair lo hi => xs.map (fun x => clipQ lo hi x)

/-- The treatment branch of the wrapper, reached when `rtype != bool`
(source lines 95–112): trimming filters out flagged elements, capping
replaces flagged elements by a scalar or clips the whole sample by a
pair, discretization raises `NotImplementedError`, and any other method
string raises `ValueError`.  The final `np.array(retvalue, dtype=rtype)`
cast is the identity on the numeric results modelled here. -/
def treatment (xs : List ℚ) (mask : List Bool) (treat : String) (capping : CapSpec) :
    Except OutlierError (List ℚ) :=
  if treat = "trimming" then
    .ok (((xs.zip mask).filter (fun p => !p.2)).map Prod.fst)
  else if treat = "capping" then
    .ok (cappingResult xs mask capping)
  else if treat = "discretization" then
    .error (.unsupportedOperationError "Apply Externally.")
  else
    .error (.configurationError ("Unknown Treatment Method: " ++ treat))

/-- Source lines 91–118 as a whole: when `rtype` is `bool` (the default)
the detector's mask is returned unchanged; otherwise the treatment
branch runs. -/
def dispatch (rtypeBool : Bool) (treat : String) (capping : CapSpec)
    (xs : List ℚ) (mask : List Bool) : Except OutlierError (List Bool ⊕ List ℚ) :=
  if rtypeBool then .ok (.inl mask)
  else (treatment xs mask treat capping).map .inr

/-- The full decorated call (the `wrapper` of source lines 53–118) for a
boolean-mask detector `func`: resolve the bounds, compute the mask, then
dispatch on `rtype`/`treatment`/`capping`. -/
def wrapper (func : List ℚ → ℚ × ℚ → List Bool) (m : Method) (xs : List ℚ)
    (bounds : BoundsSpec) (rtypeBool : Bool) (treat : String) (capping : CapSpec) :
    Except OutlierError (List Bool ⊕ List ℚ) :=
  match resolveBounds m bounds with
  | .error e => .error e
  | .ok b => dispatch rtypeBool treat capping xs (func xs b)

/-- The public decorated `quartile` entry point. -/
def runQuartile (xs : List ℚ) (bounds : BoundsSpec) (rtypeBool : Bool)
    (treat : String) (capping : CapSpec) : Except OutlierError (List Bool ⊕ List ℚ) :=
  wrapper quartile .quartile xs bounds rtypeBool treat capping

/-- Reference formulation of trimming, from the specification's words:
the subsequence of sample elements whose mask entry is false, in their
original relative order. -/
def keepUnflagged : List ℚ → List Bool → List ℚ
  | [], _ => []
  | _ :: _, [] => []
  | x :: xs, c :: cs => if c then keepUnflagged xs cs else x :: keepUnflagged xs cs

/-- Reference formulation of scalar capping, from the specification's
words: every flagged element replaced by the capping value, unflagged
elements unchanged. -/
def capScalar : List ℚ → List Bool → ℚ → List ℚ
  | [], _, _ => []
  | _ :: _, [], _ => []
  | x :: xs, c :: cs, v => (if c then v else x) :: capScalar xs cs v

/-! ## Helper lemmas -/

theorem getD_map_of_lt {α β : Type} (f : α → β) (l : List α) (i : ℕ)
    (h : i < l.length) (d : β) (d' : α) : (l.map f).getD i d = f (l.getD i d') := by
  rw [List.getD_eq_getElem _ _ (by simpa using h), List.getD_eq_getElem _ _ h,
    List.getElem_map]

/-- Sorting commutes with shifting every element by a constant. -/
theorem sortQ_map_add (xs : List ℚ) (c : ℚ) :
    sortQ (xs.map (· + c)) = (sortQ xs).map (· + c) := by
  apply List.eq_of_perm_of_sorted (r := (· ≤ · : ℚ → ℚ → Prop))
  · exact (List.perm_insertionSort _ _).trans ((List.perm_insertionSort _ xs).symm.map _)
  · exact List.sorted_insertionSort _ _
  · exact (List.sorted_insertionSort _ xs).map _ (fun a b hab => add_le_add_right hab c)

/-- Linear interpolation commutes with shifting, provided the floor
index is in range. -/
theorem interpolate_map_add (s : List ℚ) (c h : ℚ) (hi : ⌊h⌋.toNat < s.length) :
    interpolate (s.map (· + c)) h = interpolate s h + c := by
  have hj : min (⌊h⌋.toNat + 1) (s.length - 1) < s.length := by omega
  rw [interpolate, interpolate, List.length_map]
  rw [getD_map_of_lt _ _ _ hi _ 0, getD_map_of_lt _ _ _ hj _ 0]
  ring

theorem sortQ_length (xs : List ℚ) : (sortQ xs).length = xs.length :=
  List.length_insertionSort _ xs

/-- The floor index used by `quantileQ` stays in range for a nonempty
sample and a fraction in `[0, 1]`. -/
theorem quantile_index_lt (xs : List ℚ) (q : ℚ) (hne : xs ≠ [])
    (h1 : q ≤ 1) :
    ⌊q * (((sortQ xs).length : ℚ) - 1)⌋.toNat < (sortQ xs).length := by
  have hn : 0 < (sortQ xs).length := by
    rw [sortQ_length]
    exact List.length_pos.mpr hne
  have hnn : (0 : ℚ) ≤ ((sortQ xs).length : ℚ) - 1 := by
    rw [sub_nonneg]
    exact_mod_cast hn
  have hub : q * (((sortQ xs).length : ℚ) - 1) ≤ ((sortQ xs).length : ℚ) - 1 := by
    calc q * (((sortQ xs).length : ℚ) - 1) ≤ 1 * (((sortQ xs).length : ℚ) - 1) :=
          mul_le_mul_of_nonneg_right h1 hnn
      _ = ((sortQ xs).length : ℚ) - 1 := one_mul _
  have hcast : ⌊(((sortQ xs).length : ℚ) - 1)⌋ = ((sortQ xs).length : ℤ) - 1 := by
    rw [show (((sortQ xs).length : ℚ) - 1) = ((((sortQ xs).length : ℤ) - 1 : ℤ) : ℚ) by
      push_cast; ring]
    exact Int.floor_intCast _
  have hfl : ⌊q * (((sortQ xs).length : ℚ) - 1)⌋ ≤ ((sortQ xs).length : ℤ) - 1 :=
    le_of_le_of_eq (Int.floor_le_floor hub) hcast
  omega

/-- `np.quantile` is translation-equivariant: shifting the sample by `c`
shifts the quantile by `c`. -/
theorem quantileQ_map_add (xs : List ℚ) (c q : ℚ) (hne : xs ≠ [])
    (h1 : q ≤ 1) :
    quantileQ (xs.map (· + c)) q = quantileQ xs q + c := by
  rw [quantileQ, quantileQ, sortQ_map_add, List.length_map]
  exact interpolate_map_add _ c _ (quantile_index_lt xs q hne h1)

/-- Evaluation helper: the two default quantiles of `[1, 2, 3]`. -/
theorem quantileQ_123_low : quantileQ [1, 2, 3] (1/4) = 3/2 := by
  rw [quantileQ]
  norm_num [sortQ, List.insertionSort, List.orderedInsert]
  rw [interpolate]
  norm_num

theorem quantileQ_123_high : quantileQ [1, 2, 3] (3/4) = 5/2 := by
  rw [quantileQ]
  norm_num [sortQ, List.insertionSort, List.orderedInsert]
  rw [interpolate]
  norm_num

theorem quartile_123_default : quartile [1, 2, 3] (1/4, 3/4) = [false, false, false] := by
  rw [quartile]
  simp only [quantileQ_123_low, quantileQ_123_high]
  norm_num

/-- Evaluation helper: every quantile of the constant sample `[0, 0, 0]`
is `0`, so nothing is flagged. -/
theorem quartile_000_default : quartile [0, 0, 0] (1/4, 3/4) = [false, false, false] := by
  have hlow : quantileQ [0, 0, 0] (1/4) = 0 := by
    rw [quantileQ]
    norm_num [sortQ, List.insertionSort, List.orderedInsert]
    rw [interpolate]
    norm_num
  have hhigh : quantileQ [0, 0, 0] (3/4) = 0 := by
    rw [quantileQ]
    norm_num [sortQ, List.insertionSort, List.orderedInsert]
    rw [interpolate]
    norm_num
  rw [quartile]
  simp only [hlow, hhigh]
  norm_num

/-- Counterexample to **C6** as stated: with the default return type
(`rtype = bool`) the treatment keyword is ignored entirely, so
requesting discretization does not fail — the boolean mask is returned.
-/
theorem discretization_ok_counterexample :
    runQuartile [1, 2, 3] .unspecified true "discretization" (.scalar 0) =
      .ok (.inl [false, false, false]) := by
  show Except.ok (Sum.inl (quartile [1, 2, 3] (1/4, 3/4))) =
    Except.ok (Sum.inl [false, false, false])
  rw [quartile_123_default]

/-- **C6 (amended).** When a non-boolean return type is requested and
the bounds specification is accepted by the resolver, requesting the
discretization treatment always fails with the
`UnsupportedOperationError` (`NotImplementedError`) directing the
caller to apply bucketization externally. -/
theorem discretization_error (spec : BoundsSpec) (b : ℚ × ℚ) (capping : CapSpec)
    (xs : List ℚ) (h : resolveBounds .quartile spec = .ok b) :
    runQuartile xs spec false "discretization" capping =
      .error (.unsupportedOperationError "Apply Externally.") := by
  rw [runQuartile]
  unfold wrapper
  rw [h]
  rfl

/-- Witness for `discretization_error` with the default bounds. -/
theorem discretization_error_witness :
    runQuartile [1, 2, 3] .unspecified false "discretization" (.scalar 0) =
      .error (.unsupportedOperationError "Apply Externally.") :=
  discretization_error .unspecified (1/4, 3/4) (.scalar 0) [1, 2, 3] rfl

/-- Counterexample to **C7** as stated: with the default return type
(`rtype = bool`) an unrecognized treatment mode string does not fail —
the boolean mask is returned. -/
theorem unknown_treatment_ok_counterexample :
    runQuartile [0, 0, 0] .unspecified true "bogus" (.scalar 0) =
      .ok (.inl [false, false, false]) := by
  show Except.ok (Sum.inl (quartile [0, 0, 0] (1/4, 3/4))) =
    Except.ok (Sum.inl [false, false, false])
  rw [quartile_000_default]

/-- **C7 (amended).** When a non-boolean return type is requested and
the bounds specification is accepted by the resolver, an unrecognized
treatment mode string always fails with a `ConfigurationError`
(`ValueError`) naming the unknown mode. -/
theorem unknown_treatment_error (spec : BoundsSpec) (b : ℚ × ℚ) (capping : CapSpec)
    (xs : List ℚ) (treat : String) (h : resolveBounds .quartile spec = .ok b)
    (h1 : treat ≠ "trimming") (h2 : treat ≠ "capping") (h3 : treat ≠ "discretization") :
    runQuartile xs spec false treat capping =
      .error (.configurationError ("Unknown Treatment Method: " ++ treat)) := by
  rw [runQuartile]
  unfold wrapper
  rw [h]
  show (treatment xs (quartile xs b) treat capping).map Sum.inr = _
  rw [treatment, if_neg h1, if_neg h2, if_neg h3]
  rfl

/-- Witness for `unknown_treatment_error` with the mode `"bogus"`. -/
theorem unknown_treatment_error_witness :
    runQuartile [1, 2, 3] .unspecified false "bogus" (.scalar 0) =
      .error (.configurationError ("Unknown Treatment Method: " ++ "bogus")) :=
  unknown_treatment_error .unspecified (1/4, 3/4) (.scalar 0) [1, 2, 3] "bogus" rfl
    (by decide) (by decide) (by decide)

/-- Counterexample to **C10** as stated: the claim quantifies over every
bounds specification, but a three-element bounds tuple makes the call
fail in the resolver even when `rtype = bool`. -/
theorem rtype_bool_raises_counterexample :
    runQuartile [1, 2] (.pair [1, 2, 3]) true "capping" (.scalar 0) =
      .error (.configurationError "Boundary should be 2D, got 3") := rfl

/-- **C10 (amended).** When `rtype = bool` (the default) and the bounds
specification is accepted by the resolver, the wrapper returns the
detector's boolean mask unchanged and ignores the treatment and capping
options entirely — including `"discretization"` and unrecognized mode
strings. -/
theorem rtype_bool_returns_mask (func : List ℚ → ℚ × ℚ → List Bool) (m : Method)
    (xs : List ℚ) (spec : BoundsSpec) (b : ℚ × ℚ) (treat : String) (capping : CapSpec)
    (h : resolveBounds m spec = .ok b) :
    wrapper func m xs spec true treat capping = .ok (.inl (func xs b)) := by
  unfold wrapper
  rw [h]
  rfl

/-- Witness for `rtype_bool_returns_mask`: the quartile pipeline with
`rtype = bool` and the (otherwise failing) discretization treatment
returns the raw mask. -/
theorem rtype_bool_returns_mask_witness :
    wrapper quartile .quartile [5, 6] .unspecified true "discretization" (.scalar 0) =
      .ok (.inl (quartile [5, 6] (1/4, 3/4))) :=
  rtype_bool_returns_mask quartile .quartile [5, 6] .unspecified (1/4, 3/4)
    "discretization" (.scalar 0) rfl

end Statology

namespace Statology

/-! ## Claims about the quantile-range detector -/

/-- **C9.** The quantile-range detector is translation-invariant: adding
a constant `c` to every element of a (nonempty) sample, with fractions
in `[0, 1]`, yields exactly the same boolean mask. -/
theorem quartile_translation_invariant (xs : List ℚ) (b : ℚ × ℚ) (c : ℚ)
    (hne : xs ≠ []) (_hb1 : 0 ≤ b.1) (hb2 : b.1 ≤ 1) (_hb3 : 0 ≤ b.2) (hb4 : b.2 ≤ 1) :
    quartile (xs.map (· + c)) b = quartile xs b := by
  rw [quartile, quartile]
  rw [quantileQ_map_add xs c b.1 hne hb2, quantileQ_map_add xs c b.2 hne hb4]
  rw [List.map_map]
  apply List.map_congr_left
  intro x _
  simp only [Function.comp_apply]
  have e1 : quantileQ xs b.1 + c - 3/2 * ((quantileQ xs b.2 + c) - (quantileQ xs b.1 + c)) =
      (quantileQ xs b.1 - 3/2 * (quantileQ xs b.2 - quantileQ xs b.1)) + c := by ring
  have e2 : quantileQ xs b.2 + c + 3/2 * ((quantileQ xs b.2 + c) - (quantileQ xs b.1 + c)) =
      (quantileQ xs b.2 + 3/2 * (quantileQ xs b.2 - quantileQ xs b.1)) + c := by ring
  rw [e1, e2]
  congr 1
  · exact decide_eq_decide.mpr (add_lt_add_iff_right c)
  · exact decide_eq_decide.mpr (add_lt_add_iff_right c)

/-- Witness for `quartile_translation_invariant`: shifting the sample
`[1, 2, 100]` by `7` gives the same mask as the original sample under
the default fractions. -/
theorem quartile_translation_invariant_witness :
    quartile [8, 9, 107] (1/4, 3/4) = quartile [1, 2, 100] (1/4, 3/4) := by
  have h := quartile_translation_invariant [1, 2, 100] (1/4, 3/4) 7
    (by simp) (by norm_num) (by norm_num) (by norm_num) (by norm_num)
  have hmap : ([1, 2, 100] : List ℚ).map (· + 7) = [8, 9, 107] := by
    simp only [List.map_cons, List.map_nil]
    norm_num
  rwa [hmap] at h

/-! ## Claims about the standard-score detector -/

theorem popVar_nonneg (xs : List ℚ) : 0 ≤ popVar xs := by
  rw [popVar]
  apply div_nonneg
  · apply List.sum_nonneg
    intro x hx
    obtain ⟨y, _, rfl⟩ := List.mem_map.mp hx
    positivity
  · exact_mod_cast Nat.zero_le _

theorem popStd_ne_zero {xs : List ℚ} (hv : popVar xs ≠ 0) : popStd xs ≠ 0 := by
  rw [popStd]
  intro h
  have h0 : ((popVar xs : ℝ)) ≤ 0 := Real.sqrt_eq_zero'.mp h
  have h1 : (0 : ℝ) ≤ (popVar xs : ℝ) := by exact_mod_cast popVar_nonneg xs
  exact hv (by exact_mod_cast le_antisymm h0 h1)

/-- **C2.** For every sample with nonzero (population) variance and
every threshold pair, the standard-score detector returns a mask of the
same length and order as the sample, an element `x` being marked iff
`(x - mean) / population_std` is strictly below the low threshold or
strictly above the high threshold. -/
theorem zscore_mask_spec (xs : List ℚ) (b : ℚ × ℚ) (hv : popVar xs ≠ 0) :
    (zscore xs b).length = xs.length ∧
    ∀ i, i < xs.length →
      ((zscore xs b).getD i False ↔
        (((xs.getD i 0 : ℚ) : ℝ) - (popMean xs : ℝ)) / popStd xs < ((b.1 : ℚ) : ℝ) ∨
        ((b.2 : ℚ) : ℝ) < (((xs.getD i 0 : ℚ) : ℝ) - (popMean xs : ℝ)) / popStd xs) := by
  have hstd := popStd_ne_zero hv
  constructor
  · simp [zscore, zscoreScores]
  · intro i hi
    rw [zscore, zscoreScores, List.map_map]
    rw [getD_map_of_lt _ _ _ hi _ 0]
    simp only [Function.comp_apply]
    rw [fdiv, if_neg hstd]
    simp [oLt, oGt]

/-- Witness for `zscore_mask_spec` at the sample `[0, 2]` (variance `1`)
with the default thresholds. -/
theorem zscore_mask_spec_witness :
    popVar [0, 2] ≠ 0 ∧
    ((zscore [0, 2] (-5/2, 5/2)).getD 0 False ↔
      (((0 : ℚ) : ℝ) - (popMean [0, 2] : ℝ)) / popStd [0, 2] < ((-5/2 : ℚ) : ℝ) ∨
      ((5/2 : ℚ) : ℝ) < (((0 : ℚ) : ℝ) - (popMean [0, 2] : ℝ)) / popStd [0, 2]) := by
  have hv : popVar ([0, 2] : List ℚ) ≠ 0 := by
    have : popVar ([0, 2] : List ℚ) = 1 := by
      rw [popVar, popMean]
      norm_num [List.sum_cons, List.sum_nil, List.map_cons, List.map_nil]
    rw [this]; norm_num
  refine ⟨hv, ?_⟩
  have h := (zscore_mask_spec [0, 2] (-5/2, 5/2) hv).2 0 (by norm_num)
  simpa using h

/-- **C8.** On a zero-variance sample the standard-score detector does
not fail: every score is the nan sentinel, nan compares false against
both thresholds, and the mask is all-false, of the sample's length. -/
theorem zscore_zero_variance (xs : List ℚ) (b : ℚ × ℚ) (hv : popVar xs = 0) :
    (zscoreScores xs).length = xs.length ∧
    (∀ i, i < xs.length → (zscoreScores xs).getD i (some 0) = Option.none) ∧
    (zscore xs b).length = xs.length ∧
    (∀ i, i < xs.length → ¬ (zscore xs b).getD i False) := by
  have hstd : popStd xs = 0 := by
    simp [popStd, hv]
  refine ⟨by simp [zscoreScores], ?_, by simp [zscore, zscoreScores], ?_⟩
  · intro i hi
    rw [zscoreScores]
    rw [getD_map_of_lt _ _ _ hi _ 0]
    rw [fdiv, if_pos hstd]
  · intro i hi
    rw [zscore, zscoreScores, List.map_map]
    rw [getD_map_of_lt _ _ _ hi _ 0]
    simp only [Function.comp_apply]
    rw [fdiv, if_pos hstd]
    simp [oLt, oGt]

/-- Witness for `zscore_zero_variance` at the constant sample `[3, 3]`
with the (asymmetric) thresholds `(1, 5)`, where the nan comparisons
matter: a genuine zero score would have been below the low threshold. -/
theorem zscore_zero_variance_witness :
    popVar [3, 3] = 0 ∧ ¬ (zscore [3, 3] (1, 5)).getD 0 False := by
  have hv : popVar ([3, 3] : List ℚ) = 0 := by
    rw [popVar, popMean]
    norm_num [List.sum_cons, List.sum_nil, List.map_cons, List.map_nil]
  exact ⟨hv, (zscore_zero_variance [3, 3] (1, 5) hv).2.2.2 0 (by norm_num)⟩

/-! ## Claims about the treatment dispatcher -/

theorem trimming_eq_keepUnflagged (xs : List ℚ) (mask : List Bool) :
    ((xs.zip mask).filter (fun p => !p.2)).map Prod.fst = keepUnflagged xs mask := by
  induction xs generalizing mask with
  | nil => cases mask <;> rfl
  | cons x xs ih =>
    cases mask with
    | nil => rfl
    | cons c cs =>
      cases c with
      | false => simpa [keepUnflagged, List.zip_cons_cons, List.filter] using ih cs
      | true => simpa [keepUnflagged, List.zip_cons_cons, List.filter] using ih cs

theorem keepUnflagged_length (xs : List ℚ) (mask : List Bool)
    (h : mask.length = xs.length) :
    (keepUnflagged xs mask).length = xs.length - (mask.count true) := by
  induction xs generalizing mask with
  | nil => cases mask with
    | nil => rfl
    | cons c cs => simp at h
  | cons x xs ih =>
    cases mask with
    | nil => simp at h
    | cons c cs =>
      have hlen : cs.length = xs.length := by simpa using h
      have hcnt : cs.count true ≤ cs.length := List.count_le_length _ _
      have ihh := ih cs hlen
      cases c <;> (simp [keepUnflagged, List.count_cons, ihh]; try omega)

/-- **C4.** The trimming treatment returns exactly the sample elements
whose mask entry is false, in their original relative order, and its
length is the sample length minus the number of flagged entries. -/
theorem trimming_spec (xs : List ℚ) (mask : List Bool) (capping : CapSpec)
    (h : mask.length = xs.length) :
    treatment xs mask "trimming" capping = .ok (keepUnflagged xs mask) ∧
    (keepUnflagged xs mask).length = xs.length - (mask.count true) := by
  constructor
  · rw [treatment, if_pos rfl, trimming_eq_keepUnflagged]
  · exact keepUnflagged_length xs mask h

/-- Witness for `trimming_spec`: trimming `[1, 2, 3]` with the mask
`[true, false, true]` keeps only the middle element. -/
theorem trimming_spec_witness :
    treatment [1, 2, 3] [true, false, true] "trimming" (.scalar 0) =
      .ok (keepUnflagged [1, 2, 3] [true, false, true]) ∧
    (keepUnflagged [1, 2, 3] [true, false, true]).length = 1 := by
  have h := trimming_spec [1, 2, 3] [true, false, true] (.scalar 0) (by rfl)
  exact ⟨h.1, by simpa using h.2⟩

theorem capScalar_eq (xs : List ℚ) (mask : List Bool) (v : ℚ) :
    (xs.zip mask).map (fun p => if p.2 then v else p.1) = capScalar xs mask v := by
  induction xs generalizing mask with
  | nil => cases mask <;> rfl
  | cons x xs ih =>
    cases mask with
    | nil => rfl
    | cons c cs => simp [capScalar, List.zip_cons_cons, ih cs]

theorem capScalar_length (xs : List ℚ) (mask : List Bool) (v : ℚ)
    (h : mask.length = xs.length) : (capScalar xs mask v).length = xs.length := by
  induction xs generalizing mask with
  | nil => cases mask with
    | nil => rfl
    | cons c cs => simp at h
  | cons x xs ih =>
    cases mask with
    | nil => simp at h
    | cons c cs =>
      have hlen : cs.length = xs.length := by simpa using h
      simp [capScalar, ih cs hlen]

/-- **C5.** Capping with a single scalar `c` replaces exactly the
flagged elements by `c`, leaves the others unchanged and preserves the
length; capping with a pair `(lo, hi)` clips the entire original sample
into `[lo, hi]` independently of the mask (`min hi (max lo x)`
element-wise: values below `lo` become `lo`, values above `hi` become
`hi`, values inside are unchanged). -/
theorem capping_spec (xs : List ℚ) (mask : List Bool) (c lo hi : ℚ)
    (h : mask.length = xs.length) :
    treatment xs mask "capping" (.scalar c) = .ok (capScalar xs mask c) ∧
    (capScalar xs mask c).length = xs.length ∧
    treatment xs mask "capping" (.capPair lo hi) = .ok (xs.map (fun x => clipQ lo hi x)) ∧
    (lo ≤ hi → ∀ x : ℚ,
      (x < lo → clipQ lo hi x = lo) ∧
      (hi < x → clipQ lo hi x = hi) ∧
      (lo ≤ x → x ≤ hi → clipQ lo hi x = x)) := by
  refine ⟨?_, capScalar_length xs mask c h, ?_, ?_⟩
  · rw [treatment, if_neg (by decide), if_pos rfl]
    rw [cappingResult, capScalar_eq]
  · rw [treatment, if_neg (by decide), if_pos rfl]
    rfl
  · intro hlohi x
    refine ⟨?_, ?_, ?_⟩
    · intro hx
      rw [clipQ, max_eq_left hx.le, min_eq_right hlohi]
    · intro hx
      rw [clipQ, max_eq_right (le_trans hlohi hx.le), min_eq_left hx.le]
    · intro h1 h2
      rw [clipQ, max_eq_right h1, min_eq_right h2]

/-- Witness for `capping_spec`: scalar-capping `[1, 5, 10]` with the
mask `[true, false, true]` and value `0`, and clipping `10` into
`[2, 6]`. -/
theorem capping_spec_witness :
    treatment [1, 5, 10] [true, false, true] "capping" (.scalar 0) =
      .ok (capScalar [1, 5, 10] [true, false, true] 0) ∧
    clipQ 2 6 10 = 6 := by
  have h := capping_spec [1, 5, 10] [true, false, true] 0 2 6 (by rfl)
  exact ⟨h.1, (h.2.2.2 (by norm_num) 10).2.1 (by norm_num)⟩

/-- **C1.** For every numeric sample and every fraction pair, the
quantile-range detector returns a mask of the same length and order as
the sample, an element being marked `true` iff it is strictly less than
`Q1 - 1.5 * IQR` or strictly greater than `Q3 + 1.5 * IQR`, where `Q1`
and `Q3` are the linear-interpolation sample quantiles at the two
fractions and `IQR = Q3 - Q1`; in particular when `IQR = 0` an element
is marked iff it differs from `Q1`. -/
theorem quartile_mask_spec (xs : List ℚ) (b : ℚ × ℚ) :
    (quartile xs b).length = xs.length ∧
    (∀ i, i < xs.length →
      ((quartile xs b).getD i false = true ↔
        (xs.getD i 0 < quantileQ xs b.1 - 3/2 * (quantileQ xs b.2 - quantileQ xs b.1) ∨
         quantileQ xs b.2 + 3/2 * (quantileQ xs b.2 - quantileQ xs b.1) < xs.getD i 0))) ∧
    (quantileQ xs b.2 - quantileQ xs b.1 = 0 →
      ∀ i, i < xs.length →
        ((quartile xs b).getD i false = true ↔ xs.getD i 0 ≠ quantileQ xs b.1)) := by
  refine ⟨by simp [quartile], ?_, ?_⟩
  · intro i hi
    rw [quartile]
    rw [getD_map_of_lt _ _ _ hi _ 0]
    simp [Bool.or_eq_true, decide_eq_true_eq]
  · intro hIQR i hi
    have hq : quantileQ xs b.2 = quantileQ xs b.1 := sub_eq_zero.mp hIQR
    rw [quartile]
    rw [getD_map_of_lt _ _ _ hi _ 0]
    rw [hq, sub_self, mul_zero, sub_zero, add_zero]
    simp only [Bool.or_eq_true, decide_eq_true_eq]
    exact lt_or_lt_iff_ne

/-- Witness for `quartile_mask_spec` at the constant sample `[2, 2]`
(where the interquartile range is zero) with the default fractions. -/
theorem quartile_mask_spec_witness :
    (quartile [2, 2] (1/4, 3/4)).getD 0 false = true ↔ (2 : ℚ) ≠ quantileQ [2, 2] (1/4) := by
  have h := (quartile_mask_spec [2, 2] (1/4, 3/4)).2.2
  have hIQR : quantileQ [2, 2] (3/4 : ℚ) - quantileQ [2, 2] (1/4 : ℚ) = 0 := by
    have e1 : quantileQ [2, 2] (1/4 : ℚ) = 2 := by
      rw [quantileQ]
      norm_num [sortQ, List.insertionSort, List.orderedInsert]
      rw [interpolate]
      norm_num
    have e2 : quantileQ [2, 2] (3/4 : ℚ) = 2 := by
      rw [quantileQ]
      norm_num [sortQ, List.insertionSort, List.orderedInsert]
      rw [interpolate]
      norm_num
    rw [e1, e2]; norm_num
  have := h hIQR 0 (by norm_num)
  simpa using this


/-! ## Claims about the boundary resolver and the wrapper -/

/-- Counterexample to **C3** as stated: the claim says a single scalar
`t` is always expanded to the symmetric pair `(-t, t)`, but the source
tests Python truthiness (`if not bounds`), so the falsy scalar `0`
resolves to the method defaults `(0.25, 0.75)` instead of `(0, 0)`. -/
theorem resolveBounds_scalar_zero_counterexample :
    resolveBounds .quartile (.scalar 0) = .ok (1/4, 3/4) ∧
    ¬ resolveBounds .quartile (.scalar 0) = .ok (-(0 : ℚ), (0 : ℚ)) := by
  have h1 : resolveBounds .quartile (.scalar 0) = .ok (1/4, 3/4) := rfl
  refine ⟨h1, ?_⟩
  rw [h1]
  intro h
  simp only [Except.ok.injEq, Prod.mk.injEq] at h
  have := h.1
  norm_num at this

/-- **C3 (amended).** The boundary resolver: a falsy specification
(`None`, the scalar `0`, or an empty pair) resolves to the method
defaults — `(0.25, 0.75)` for the quantile method, `(-2.5, 2.5)` for
the z-score method; a nonzero scalar `t` expands to `(-t, t)`; a
two-element pair is used as-is; a nonempty pair without exactly two
elements fails with a configuration error (the `AssertionError` of the
source) saying the boundary should be two-dimensional. -/
theorem resolveBounds_spec (m : Method) :
    resolveBounds .quartile .unspecified = .ok (1/4, 3/4) ∧
    resolveBounds .zscore .unspecified = .ok (-5/2, 5/2) ∧
    (∀ t : ℚ, t ≠ 0 → resolveBounds m (.scalar t) = .ok (-t, t)) ∧
    resolveBounds m (.scalar 0) = resolveBounds m .unspecified ∧
    resolveBounds m (.pair []) = resolveBounds m .unspecified ∧
    (∀ lo hi : ℚ, resolveBounds m (.pair [lo, hi]) = .ok (lo, hi)) ∧
    (∀ l : List ℚ, l ≠ [] → l.length ≠ 2 →
      resolveBounds m (.pair l) =
        .error (.configurationError ("Boundary should be 2D, got " ++ toString l.length))) := by
  refine ⟨rfl, rfl, ?_, rfl, rfl, fun lo hi => rfl, ?_⟩
  · intro t ht
    simp [resolveBounds, resolveList, truthy, ht]
  · intro l hl hlen
    rw [resolveBounds]
    have hres : resolveList m (.pair l) = l := by
      simp [resolveList, truthy, hl]
    rw [hres]
    match l, hl, hlen with
    | [], hl, _ => exact absurd rfl hl
    | [a], _, _ => rfl
    | [a, b], _, hlen => exact absurd rfl hlen
    | a :: b :: c :: rest, _, _ => rfl

/-- Witness for `resolveBounds_spec`: the scalar `1` expands to
`(-1, 1)` and the three-element pair `[1, 2, 3]` is rejected. -/
theorem resolveBounds_spec_witness :
    resolveBounds .quartile (.scalar 1) = .ok (-1, 1) ∧
    resolveBounds .quartile (.pair [1, 2, 3]) =
      .error (.configurationError ("Boundary should be 2D, got " ++ toString ([1, 2, 3] : List ℚ).length)) := by
  constructor
  · exact (resolveBounds_spec .quartile).2.2.1 1 (by norm_num)
  · exact (resolveBounds_spec .quartile).2.2.2.2.2.2 [1, 2, 3] (by simp) (by simp)
end Statology
